import Mathlib

/-!
Verification of the psi-spell-encode-wasm codec (src/lib/src/lib.rs).

The Rust code is shallowly embedded: byte buffers are `List Nat` (each
element a byte value), Rust `String`s are their UTF-8 byte sequences
(`List Nat`), `HashMap<String, u8>` is an insertion-ordered association
list `List (List Nat × Nat)` (iteration order of the Rust map is a
property of the map's construction history; the list order models it),
fallible code returns `Except`/`Option`, and a Rust panic is the
explicit error value `panicked`.
-/

deriving instance DecidableEq for Except

namespace Psi

/-- UTF-8 bytes of an ASCII string literal (all literals used here are ASCII). -/
def strB (s : String) : List Nat := s.data.map Char.toNat

/-- `Mod` from src/lib/src/lib.rs: a `{name, version}` dependency record. -/
structure Mod where
  name : List Nat
  version : List Nat
deriving DecidableEq

/-- `SpellData` from src/lib/src/lib.rs. -/
structure SpellData where
  key : List Nat
  params : Option (List (List Nat × Nat))
  constant : Option (List Nat)
  comment : Option (List Nat)
deriving DecidableEq

/-- `Piece` from src/lib/src/lib.rs: `x`, `y` are Rust `u8` values. -/
structure Piece where
  data : SpellData
  x : Nat
  y : Nat
deriving DecidableEq

/-- `Spell` from src/lib/src/lib.rs (fields in source order). -/
structure Spell where
  mods : List Mod
  pieces : List Piece
  name : List Nat
deriving DecidableEq

/-- `BUILTIN_PARAMS` from src/lib/src/lib.rs: the 43 well-known parameter names. -/
def BUILTIN_PARAMS : List (List Nat) :=
  [strB "_target", strB "_number", strB "_number1", strB "_number2", strB "_number3",
   strB "_number4", strB "_vector1", strB "_vector2", strB "_vector3", strB "_vector4",
   strB "_position", strB "_min", strB "_max", strB "_power", strB "_x", strB "_y",
   strB "_z", strB "_radius", strB "_distance", strB "_time", strB "_base", strB "_ray",
   strB "_vector", strB "_axis", strB "_angle", strB "_pitch", strB "_instrument",
   strB "_volume", strB "_list1", strB "_list2", strB "_list", strB "_direction",
   strB "_from1", strB "_from2", strB "_to1", strB "_to2", strB "_root", strB "_toggle",
   strB "_mask", strB "_channel", strB "_slot", strB "_ray_end", strB "_ray_start"]

/-- `SpecialTag` from src/lib/src/lib.rs. -/
inductive SpecialTag where
  | Connector
  | ConstantNumber
  | VectorConstruct
  | VectorSum
  | VectorSub
  | VectorMul
  | VectorDiv
  | Sum
  | Sub
  | Mul
  | Div
  | Mod
  | VectorExtractX
  | VectorExtractY
  | VectorExtractZ
  | EntityPosition
  | EntityLook
  | Die
  | ErrSuppressor
  | Caster
  | None
deriving DecidableEq

/-- The `repr(u8)` discriminant of each `SpecialTag` variant. -/
def SpecialTag.tagByte : SpecialTag → Nat
  | .Connector => 0
  | .ConstantNumber => 1
  | .VectorConstruct => 2
  | .VectorSum => 3
  | .VectorSub => 4
  | .VectorMul => 5
  | .VectorDiv => 6
  | .Sum => 7
  | .Sub => 8
  | .Mul => 9
  | .Div => 10
  | .Mod => 11
  | .VectorExtractX => 12
  | .VectorExtractY => 13
  | .VectorExtractZ => 14
  | .EntityPosition => 15
  | .EntityLook => 16
  | .Die => 17
  | .ErrSuppressor => 18
  | .Caster => 19
  | .None => 255

/-- `impl From<&[u8]> for SpecialTag` from src/lib/src/lib.rs (kept exactly as in the
source, including the source's crossed mapping of `operator_divide` to `VectorDiv` and
`operator_vector_divide` to `Div`; this impl is not called by `extend_bin` or `decode`). -/
def specialTagFromKeyFull (value : List Nat) : SpecialTag :=
  if value = strB "connector" then .Connector
  else if value = strB "constant_number" then .ConstantNumber
  else if value = strB "operator_vector_construct" then .VectorConstruct
  else if value = strB "operator_vector_sum" then .VectorSum
  else if value = strB "operator_vector_subtract" then .VectorSub
  else if value = strB "operator_vector_multiply" then .VectorMul
  else if value = strB "operator_divide" then .VectorDiv
  else if value = strB "operator_sum" then .Sum
  else if value = strB "operator_subtract" then .Sub
  else if value = strB "operator_multiply" then .Mul
  else if value = strB "operator_vector_divide" then .Div
  else if value = strB "operator_modulus" then .Mod
  else if value = strB "operator_vector_extract_x" then .VectorExtractX
  else if value = strB "operator_vector_extract_y" then .VectorExtractY
  else if value = strB "operator_vector_extract_z" then .VectorExtractZ
  else if value = strB "operator_entity_position" then .EntityPosition
  else if value = strB "operator_entity_look" then .EntityLook
  else if value = strB "trick_die" then .Die
  else if value = strB "error_suppressor" then .ErrSuppressor
  else if value = strB "selector_caster" then .Caster
  else .None

/-- `SpecialTag::to_key` from src/lib/src/lib.rs. -/
def SpecialTag.toKey : SpecialTag → Option (List Nat)
  | .Connector => some (strB "psi:connector")
  | .ConstantNumber => some (strB "psi:constant_number")
  | .VectorConstruct => some (strB "psi:operator_vector_construct")
  | .VectorSum => some (strB "psi:operator_vector_sum")
  | .VectorSub => some (strB "psi:operator_vector_subtract")
  | .VectorMul => some (strB "psi:operator_vector_multiply")
  | .VectorDiv => some (strB "psi:operator_vector_divide")
  | .Sum => some (strB "psi:operator_sum")
  | .Sub => some (strB "psi:operator_subtract")
  | .Mul => some (strB "psi:operator_multiply")
  | .Div => some (strB "psi:operator_divide")
  | .Mod => some (strB "psi:operator_modulus")
  | .VectorExtractX => some (strB "psi:operator_vector_extract_x")
  | .VectorExtractY => some (strB "psi:operator_vector_extract_y")
  | .VectorExtractZ => some (strB "psi:operator_vector_extract_z")
  | .EntityPosition => some (strB "psi:operator_entity_position")
  | .EntityLook => some (strB "psi:operator_entity_look")
  | .Die => some (strB "psi:trick_die")
  | .ErrSuppressor => some (strB "psi:error_suppressor")
  | .Caster => some (strB "psi:selector_caster")
  | .None => Option.none

/-- `impl TryFrom<u8> for SpecialTag` from src/lib/src/lib.rs (`Ok` on `{0..19, 255}`,
`InvalidDiscriminantError` otherwise; here `Option.none` stands for the error). -/
def specialTagFromByte (b : Nat) : Option SpecialTag :=
  match b with
  | 0 => some .Connector
  | 1 => some .ConstantNumber
  | 2 => some .VectorConstruct
  | 3 => some .VectorSum
  | 4 => some .VectorSub
  | 5 => some .VectorMul
  | 6 => some .VectorDiv
  | 7 => some .Sum
  | 8 => some .Sub
  | 9 => some .Mul
  | 10 => some .Div
  | 11 => some .Mod
  | 12 => some .VectorExtractX
  | 13 => some .VectorExtractY
  | 14 => some .VectorExtractZ
  | 15 => some .EntityPosition
  | 16 => some .EntityLook
  | 17 => some .Die
  | 18 => some .ErrSuppressor
  | 19 => some .Caster
  | 255 => some .None
  | _ => Option.none

/-- The errors `Spell::extend_bin` can produce: `MissingParamError { x, y, piece, param }`,
or a Rust panic (reachable in the source via the unchecked slice `&key[0..4]`). -/
inductive EncodeError where
  | missingParam (x y : Nat) (piece param : List Nat)
  | panicked
deriving DecidableEq

/-- `GetParam::get_param` from src/lib/src/lib.rs. Note: the source's error closure
hardcodes `param: "_target".to_owned()` no matter which `key` was requested; the
embedding reproduces that. -/
def getParam (params : Option (List (List Nat × Nat))) (p : Piece) (key : List Nat) :
    Except EncodeError Nat :=
  let err := EncodeError.missingParam p.x p.y p.data.key (strB "_target")
  match params with
  | Option.none => .error err
  | some m =>
    match m.lookup key with
    | Option.none => .error err
    | some v => .ok v

/-- The namespace strip in `extend_bin`: `if &key[0..4] == b"psi:" { &key[4..] } else { key }`
(the caller has already ensured `key.length ≥ 4`). -/
def stripKey (k : List Nat) : List Nat :=
  if k.take 4 = strB "psi:" then k.drop 4 else k

/-- The packed coordinate byte `piece.x << 4 | (piece.y & 0b1111)` on `u8`. -/
def xyByte (p : Piece) : Nat := p.x % 16 * 16 + p.y % 16

/-- The encoder's inline special-tag match in `extend_bin` (src/lib/src/lib.rs lines
323–328): only three keys are matched; everything else is `SpecialTag::None`. -/
def encTag (key : List Nat) : SpecialTag :=
  if key = strB "connector" then .Connector
  else if key = strB "constant_number" then .ConstantNumber
  else if key = strB "operator_vector_construct" then .VectorConstruct
  else .None

/-- The comment field written after a piece's payload: the comment bytes (if any)
followed by a NUL. -/
def commentBytes (c : Option (List Nat)) : List Nat := c.getD [] ++ [0]

/-- The generic param block of `extend_bin` (src/lib/src/lib.rs lines 388–406):
a count byte then entries, or `255` + constant, or the lone byte `254`. -/
def paramBlock (d : SpellData) : List Nat :=
  match d.params with
  | some ps =>
    ps.length % 256 ::
      (ps.map fun e =>
        match BUILTIN_PARAMS.findIdx? (· = e.1) with
        | some pos => [pos, e.2]
        | Option.none => 255 :: e.1 ++ [0, e.2]).flatten
  | Option.none =>
    match d.constant with
    | some c => 255 :: c ++ [0]
    | Option.none => [254]

/-- The per-tag payload match of `extend_bin` (src/lib/src/lib.rs lines 331–374).
Returns the bytes pushed and, on a `get_param` failure, the bytes pushed before the
failure together with the error (the source pushes each byte before the next `?`). -/
def piecePayload (tag : SpecialTag) (p : Piece) (key : List Nat) :
    List Nat × Option EncodeError :=
  match tag with
  | .Connector | .VectorExtractX | .VectorExtractY | .VectorExtractZ
  | .EntityPosition | .EntityLook | .Die =>
    match getParam p.data.params p (strB "_target") with
    | .error e => ([], some e)
    | .ok v => ([v], Option.none)
  | .ConstantNumber => (p.data.constant.getD [] ++ [0], Option.none)
  | .VectorConstruct =>
    match getParam p.data.params p (strB "_x") with
    | .error e => ([], some e)
    | .ok a =>
      match getParam p.data.params p (strB "_y") with
      | .error e => ([a], some e)
      | .ok b =>
        match getParam p.data.params p (strB "_z") with
        | .error e => ([a, b], some e)
        | .ok c => ([a, b, c], Option.none)
  | .None => (key ++ [0], Option.none)
  | .VectorSum | .VectorSub | .VectorMul | .VectorDiv =>
    match getParam p.data.params p (strB "_vector1") with
    | .error e => ([], some e)
    | .ok a =>
      match getParam p.data.params p (strB "_vector2") with
      | .error e => ([a], some e)
      | .ok b =>
        match getParam p.data.params p (strB "_vector3") with
        | .error e => ([a, b], some e)
        | .ok c => ([a, b, c], Option.none)
  | .Sum | .Sub | .Mul | .Div =>
    match getParam p.data.params p (strB "_number1") with
    | .error e => ([], some e)
    | .ok a =>
      match getParam p.data.params p (strB "_number2") with
      | .error e => ([a], some e)
      | .ok b =>
        match getParam p.data.params p (strB "_number3") with
        | .error e => ([a, b], some e)
        | .ok c => ([a, b, c], Option.none)
  | .Mod =>
    match getParam p.data.params p (strB "_number1") with
    | .error e => ([], some e)
    | .ok a =>
      match getParam p.data.params p (strB "_number2") with
      | .error e => ([a], some e)
      | .ok b => ([a, b], Option.none)
  | .ErrSuppressor | .Caster => ([], Option.none)

/-- One iteration of the per-piece loop of `extend_bin`: the bytes this piece appends
to the output buffer and, on failure, the error (with the bytes appended before the
failure). The source slices `&key[0..4]` before pushing anything, so a key shorter
than 4 bytes panics with nothing appended. -/
def extendBinPiece (p : Piece) : List Nat × Option EncodeError :=
  if p.data.key.length < 4 then ([], some .panicked)
  else
    let key := stripKey p.data.key
    let tag := encTag key
    let head := [xyByte p, tag.tagByte]
    match piecePayload tag p key with
    | (pl, some e) => (head ++ pl, some e)
    | (pl, Option.none) =>
      let withComment := head ++ pl ++ commentBytes p.data.comment
      match tag with
      | .Connector | .ConstantNumber | .VectorConstruct => (withComment, Option.none)
      | _ => (withComment ++ paramBlock p.data, Option.none)

/-- The `SpecialTag::None` arm of `extend_bin` applied unconditionally: the spec's
"same semantic piece forced through the generic path" baseline for the tag-minimality
comparison (opcode 255, NUL-terminated key, comment, then the generic param block). -/
def extendBinPieceGeneric (p : Piece) : List Nat × Option EncodeError :=
  if p.data.key.length < 4 then ([], some .panicked)
  else
    let key := stripKey p.data.key
    ([xyByte p, 255] ++ (key ++ [0]) ++ commentBytes p.data.comment ++ paramBlock p.data,
     Option.none)

/-- The header rendering of `extend_bin`: with mods, `"name,version;…"` with the final
`;` overwritten by `]`; with no mods, a lone `]`. -/
def modsHeader (mods : List Mod) : List Nat :=
  if mods.isEmpty then [93]
  else ((mods.map fun m => m.name ++ [44] ++ m.version ++ [59]).flatten).dropLast ++ [93]

/-- The piece loop of `extend_bin`, threading the output buffer; stops at the first
failing piece, keeping what was appended up to the failure point. -/
def extendBinGo : List Piece → List Nat → List Nat × Option EncodeError
  | [], out => (out, Option.none)
  | p :: rest, out =>
    match extendBinPiece p with
    | (bs, some e) => (out ++ bs, some e)
    | (bs, Option.none) => extendBinGo rest (out ++ bs)

/-- `Spell::extend_bin` from src/lib/src/lib.rs: appends the encoding to the
caller-supplied buffer `out`; the returned buffer is the final state of `out`
(also on failure, when it holds the partial output written before the error). -/
def Spell.extendBin (s : Spell) (out : List Nat) : List Nat × Option EncodeError :=
  extendBinGo s.pieces (out ++ s.name ++ [0] ++ modsHeader s.mods)

/-- `Spell::bin` from src/lib/src/lib.rs: encodes into a fresh buffer. -/
def Spell.bin (s : Spell) : Except EncodeError (List Nat) :=
  match s.extendBin [] with
  | (out, Option.none) => .ok out
  | (_, some e) => .error e

/-- The errors `Spell::decode` can produce: an end-of-input `read_exact` failure, an
invalid opcode discriminant, a `String::from_utf8` failure, or a Rust panic (reachable
in the source via the unchecked index `BUILTIN_PARAMS[type_or_pos as usize]`). -/
inductive DecodeError where
  | eofError
  | invalidDiscriminant
  | utf8Error
  | panicked
deriving DecidableEq

/-- `read_until` from `Spell::decode`: reads up to and including the delimiter, then
pops the last byte read. If the delimiter is absent it reads to end of input and
still pops one byte (silent truncation, no error). Returns (field, remaining input). -/
def readUntil (b : Nat) (rest : List Nat) : List Nat × List Nat :=
  match rest.findIdx? (· = b) with
  | some i => (rest.take i, rest.drop (i + 1))
  | Option.none => (rest.dropLast, [])

/-- `next` from `Spell::decode`: `read_exact` of one byte; fails at end of input. -/
def nextByte : List Nat → Except DecodeError (Nat × List Nat)
  | [] => .error .eofError
  | h :: t => .ok (h, t)

/-- Whether a byte is a UTF-8 continuation byte. -/
def isCont (b : Nat) : Bool := 128 ≤ b && b < 192

/-- UTF-8 validity of a byte sequence (RFC 3629: no overlong forms, no surrogates,
max U+10FFFF) — the check performed by Rust's `String::from_utf8`. -/
def utf8Valid : List Nat → Bool
  | [] => true
  | b :: rest =>
    if b < 128 then utf8Valid rest
    else if b < 194 then false
    else if b < 224 then
      match rest with
      | b1 :: r => isCont b1 && utf8Valid r
      | [] => false
    else if b < 240 then
      match rest with
      | b1 :: b2 :: r =>
        (if b = 224 then 160 ≤ b1 && b1 < 192
         else if b = 237 then 128 ≤ b1 && b1 < 160
         else isCont b1) && isCont b2 && utf8Valid r
      | _ => false
    else if b < 245 then
      match rest with
      | b1 :: b2 :: b3 :: r =>
        (if b = 240 then 144 ≤ b1 && b1 < 192
         else if b = 244 then 128 ≤ b1 && b1 < 144
         else isCont b1) && isCont b2 && isCont b3 && utf8Valid r
      | _ => false
    else false

/-- `btos` from `Spell::decode`: `String::from_utf8`, modelled as a validity guard on
the byte sequence (strings are kept as their UTF-8 bytes in this embedding). -/
def btos (bs : List Nat) : Except DecodeError (List Nat) :=
  if utf8Valid bs then .ok bs else .error .utf8Error

/-- The byte loop inside the mods parser of `Spell::decode`: bytes before the first
`,`/`;` go to the name, later bytes to the version, and every `,`/`;` byte is skipped. -/
def parseModGo : List Nat → List Nat → List Nat → Bool → List Nat × List Nat
  | [], n, v, _ => (n, v)
  | b :: rest, n, v, nameDone =>
    if b = 44 || b = 59 then parseModGo rest n v true
    else if nameDone then parseModGo rest n (v ++ [b]) nameDone
    else parseModGo rest (n ++ [b]) v nameDone

/-- One mods-list chunk parsed into a `Mod` (with the source's `btos` of each part). -/
def parseMod (m : List Nat) : Except DecodeError Mod := do
  let (n, v) := parseModGo m [] [] false
  let n ← btos n
  let v ← btos v
  pure ⟨n, v⟩

/-- `HashMap::insert`: replace the value if the key is present, else add the entry
(modelled on the insertion-ordered association list). -/
def assocInsert (m : List (List Nat × Nat)) (k : List Nat) (v : Nat) :
    List (List Nat × Nat) :=
  if m.any (fun e => e.1 = k) then m.map (fun e => if e.1 = k then (k, v) else e)
  else m ++ [(k, v)]

/-- The generic param-entry loop of `Spell::decode` (src/lib/src/lib.rs lines 575–585).
The source indexes `BUILTIN_PARAMS[type_or_pos as usize]` without a bounds check:
an index byte in 43..254 panics. -/
def readGenericParams :
    Nat → List (List Nat × Nat) → List Nat →
      Except DecodeError (List (List Nat × Nat) × List Nat)
  | 0, ps, rest => .ok (ps, rest)
  | n + 1, ps, rest => do
    let (tp, rest) ← nextByte rest
    let (pk, rest) ←
      if tp = 255 then do
        let (kb, rest') := readUntil 0 rest
        let kb ← btos kb
        pure (kb, rest')
      else
        match BUILTIN_PARAMS.get? tp with
        | some k => pure (k, rest)
        | Option.none => .error .panicked
    let (side, rest) ← nextByte rest
    readGenericParams n (assocInsert ps pk side) rest

/-- The per-tag payload match of `Spell::decode` (src/lib/src/lib.rs lines 506–543):
returns (params inserted, constant, remaining input). -/
def decodeSpecialParams (tag : SpecialTag) (rest : List Nat) :
    Except DecodeError (List (List Nat × Nat) × Option (List Nat) × List Nat) :=
  match tag with
  | .Connector | .VectorExtractX | .VectorExtractY | .VectorExtractZ
  | .EntityPosition | .EntityLook | .Die => do
    let (t, rest) ← nextByte rest
    pure ([(strB "_target", t)], Option.none, rest)
  | .ConstantNumber => do
    let (c, rest) := readUntil 0 rest
    let c ← btos c
    pure ([], some c, rest)
  | .VectorConstruct => do
    let (a, rest) ← nextByte rest
    let (b, rest) ← nextByte rest
    let (c, rest) ← nextByte rest
    pure ([(strB "_x", a), (strB "_y", b), (strB "_z", c)], Option.none, rest)
  | .VectorSum | .VectorSub | .VectorMul | .VectorDiv => do
    let (a, rest) ← nextByte rest
    let (b, rest) ← nextByte rest
    let (c, rest) ← nextByte rest
    pure ([(strB "_vector1", a), (strB "_vector2", b), (strB "_vector3", c)],
      Option.none, rest)
  | .Sum | .Sub | .Mul | .Div => do
    let (a, rest) ← nextByte rest
    let (b, rest) ← nextByte rest
    let (c, rest) ← nextByte rest
    pure ([(strB "_number1", a), (strB "_number2", b), (strB "_number3", c)],
      Option.none, rest)
  | .Mod => do
    let (a, rest) ← nextByte rest
    let (b, rest) ← nextByte rest
    pure ([(strB "_number1", a), (strB "_number2", b)], Option.none, rest)
  | .ErrSuppressor | .Caster => pure ([], Option.none, rest)
  | .None => pure ([], Option.none, rest)

/-- The `while cursor.fill_buf()` piece loop of `Spell::decode`. Each iteration
consumes at least the coordinate byte, so the remaining input shrinks; `fuel` (set to
`input length + 1` by the caller) makes the recursion structural and is never
exhausted on any reachable path. -/
def decodePieces : Nat → List Nat → Except DecodeError (List Piece)
  | 0, _ => .error .eofError
  | fuel + 1, rest =>
    match rest with
    | [] => .ok []
    | _ :: _ => do
      let (xy, rest) ← nextByte rest
      let (tb, rest) ← nextByte rest
      let tag ←
        match specialTagFromByte tb with
        | some t => pure t
        | Option.none => Except.error DecodeError.invalidDiscriminant
      let (key, rest) ←
        match tag.toKey with
        | some k => pure (k, rest)
        | Option.none => do
          let (kb, rest') := readUntil 0 rest
          let kb := if kb.contains 58 then kb else strB "psi:" ++ kb
          let kb ← btos kb
          pure (kb, rest')
      let (params, constant, rest) ← decodeSpecialParams tag rest
      let (cb, rest) := readUntil 0 rest
      let cb ← btos cb
      let comment := if cb = [] then Option.none else some cb
      if tag ≠ SpecialTag.None then do
        let piece : Piece :=
          ⟨⟨key, if params = [] then Option.none else some params, constant, comment⟩,
            xy / 16, xy % 16⟩
        let more ← decodePieces fuel rest
        pure (piece :: more)
      else do
        let (ty, rest) ← nextByte rest
        let (params, constant, rest) ←
          if ty = 255 then do
            let (c, r) := readUntil 0 rest
            let c ← btos c
            pure (params, some c, r)
          else if ty = 254 then pure (params, constant, rest)
          else do
            let (ps, r) ← readGenericParams ty params rest
            pure (ps, constant, r)
        let piece : Piece :=
          ⟨⟨key, if params = [] then Option.none else some params, constant, comment⟩,
            xy / 16, xy % 16⟩
        let more ← decodePieces fuel rest
        pure (piece :: more)

/-- `Spell::decode` from src/lib/src/lib.rs. -/
def Spell.decode (data : List Nat) : Except DecodeError Spell := do
  let (nb, rest) := readUntil 0 data
  let name ← btos nb
  let (mb, rest) := readUntil 93 rest
  let mods ← (mb.splitOn 59).mapM parseMod
  let pieces ← decodePieces (rest.length + 1) rest
  pure ⟨mods, pieces, name⟩

/-- The sextet-to-character table of the URL-safe base64 alphabet
(`A–Z`, `a–z`, `0–9`, `-`, `_`) used by `BASE64_URL_SAFE_NO_PAD`. -/
def b64EncChar (i : Nat) : Nat :=
  if i < 26 then 65 + i
  else if i < 52 then 71 + i
  else if i < 62 then i - 4
  else if i = 62 then 45
  else 95

/-- The strict character-to-sextet table of the URL-safe alphabet
(`Option.none` on any byte outside the alphabet). -/
def b64DecChar (c : Nat) : Option Nat :=
  if 65 ≤ c ∧ c ≤ 90 then some (c - 65)
  else if 97 ≤ c ∧ c ≤ 122 then some (c - 71)
  else if 48 ≤ c ∧ c ≤ 57 then some (c + 4)
  else if c = 45 then some 62
  else if c = 95 then some 63
  else Option.none

/-- Padding-free base64 encoding (`BASE64_URL_SAFE_NO_PAD.encode`): three input
bytes become four characters; a final group of one or two bytes becomes two or
three characters. -/
def b64encode : List Nat → List Nat
  | [] => []
  | [a] => [b64EncChar (a / 4), b64EncChar (a % 4 * 16)]
  | [a, b] => [b64EncChar (a / 4), b64EncChar (a % 4 * 16 + b / 16), b64EncChar (b % 16 * 4)]
  | a :: b :: c :: rest =>
    b64EncChar (a / 4) :: b64EncChar (a % 4 * 16 + b / 16) ::
      b64EncChar (b % 16 * 4 + c / 64) :: b64EncChar (c % 64) :: b64encode rest

/-- Strict padding-free base64 decoding (`BASE64_URL_SAFE_NO_PAD.decode`): rejects
bytes outside the alphabet, a length of 1 mod 4, and nonzero trailing bits in a
final group of two or three characters. -/
def b64decode : List Nat → Option (List Nat)
  | [] => some []
  | [_] => Option.none
  | [w, x] => do
    let s1 ← b64DecChar w
    let s2 ← b64DecChar x
    if s2 % 16 = 0 then some [s1 * 4 + s2 / 16] else Option.none
  | [w, x, y] => do
    let s1 ← b64DecChar w
    let s2 ← b64DecChar x
    let s3 ← b64DecChar y
    if s3 % 4 = 0 then some [s1 * 4 + s2 / 16, s2 % 16 * 16 + s3 / 4] else Option.none
  | w :: x :: y :: z :: rest => do
    let s1 ← b64DecChar w
    let s2 ← b64DecChar x
    let s3 ← b64DecChar y
    let s4 ← b64DecChar z
    let tail ← b64decode rest
    some ((s1 * 4 + s2 / 16) :: (s2 % 16 * 16 + s3 / 4) :: (s3 % 4 * 64 + s4) :: tail)

/-- Modelled from the spec: the zstd compressor/decompressor pair prepared from the
one fixed shared dictionary (the dictionary blob `src/zstd_dict` and the zstd
library are not part of the sources under src/). `compress` is §4.4's
"compress at maximum level using the dictionary"; `decompress c cap` is its
"dictionary-aware decompress bounded by a fixed maximum output size", returning
`Option.none` on malformed input or when the output would exceed `cap`. The
theorems about the transport codec take the pair's zstd contract — bounded
decompression inverts compression and compressed data is made of bytes — as an
explicit hypothesis. -/
structure ZstdCodec where
  compress : List Nat → List Nat
  decompress : List Nat → Nat → Option (List Nat)

/-- The decompression output cap `2 << 20` from `url_safe_to_bytes`. -/
def SIZE_CAP : Nat := 2097152

/-- `byte_slice_to_url_safe` from src/lib/src/lib.rs: compress with the shared
dictionary, then base64-encode with the URL-safe padding-free alphabet. The
resulting text is represented by its character codes. -/
def byteSliceToUrlSafe (z : ZstdCodec) (bytes : List Nat) : List Nat :=
  b64encode (z.compress bytes)

/-- `url_safe_to_bytes` from src/lib/src/lib.rs: strict base64 decode, then
dictionary-aware decompression capped at `2 << 20` output bytes. -/
def urlSafeToBytes (z : ZstdCodec) (urlSafe : List Nat) : Option (List Nat) :=
  (b64decode urlSafe).bind fun d => z.decompress d SIZE_CAP

/-- The spec's set-based equality on optional param mappings ("equality of a piece's
param mapping being set-based, independent of the order in which entries were
inserted"): both absent, or each entry of one is looked up in the other. -/
def paramsValueEq : Option (List (List Nat × Nat)) → Option (List (List Nat × Nat)) → Bool
  | Option.none, Option.none => true
  | some a, some b =>
    (a.all fun e => b.lookup e.1 = some e.2) && (b.all fun e => a.lookup e.1 = some e.2)
  | _, _ => false

/-- Piece equality with set-based param-mapping equality, all other fields exact. -/
def pieceValueEq (p q : Piece) : Bool :=
  p.x == q.x && p.y == q.y && p.data.key == q.data.key &&
    paramsValueEq p.data.params q.data.params &&
    p.data.constant == q.data.constant && p.data.comment == q.data.comment

/-- Spell equality with set-based param-mapping equality on each piece. -/
def spellValueEq (s t : Spell) : Bool :=
  s.name == t.name && s.mods == t.mods && s.pieces.length == t.pieces.length &&
    (s.pieces.zip t.pieces).all fun e => pieceValueEq e.1 e.2

/-- The stripped keys of the 17 special tags (opcodes 3–19) that the decoder
understands but the inline match of `extend_bin` does not emit. -/
def otherSpecialKeys : List (List Nat) :=
  [strB "operator_vector_sum", strB "operator_vector_subtract",
   strB "operator_vector_multiply", strB "operator_vector_divide",
   strB "operator_sum", strB "operator_subtract", strB "operator_multiply",
   strB "operator_divide", strB "operator_modulus",
   strB "operator_vector_extract_x", strB "operator_vector_extract_y",
   strB "operator_vector_extract_z", strB "operator_entity_position",
   strB "operator_entity_look", strB "trick_die", strB "error_suppressor",
   strB "selector_caster"]

/-- An instance of the zstd contract used to witness the transport theorem:
compression is the identity and decompression checks the output cap. -/
def idZstd : ZstdCodec where
  compress := id
  decompress := fun c cap => if c.length ≤ cap then some c else Option.none

end Psi

namespace Psi

theorem b64DecChar_b64EncChar : ∀ s, s < 64 → b64DecChar (b64EncChar s) = some s := by
  decide

theorem b64decode_b64encode :
    ∀ (n : Nat) (b : List Nat), b.length ≤ n → (∀ x ∈ b, x < 256) →
      b64decode (b64encode b) = some b := by
  intro n
  induction n with
  | zero =>
    intro b hlen _
    have hb : b = [] := List.eq_nil_of_length_eq_zero (Nat.le_zero.mp hlen)
    subst hb
    rfl
  | succ n ih =>
    intro b hlen hel
    match b with
    | [] => rfl
    | [a] =>
      have ha : a < 256 := hel a (by simp)
      simp only [b64encode, b64decode]
      rw [b64DecChar_b64EncChar (a / 4) (by omega),
        b64DecChar_b64EncChar (a % 4 * 16) (by omega)]
      simp only [Option.bind_eq_bind, Option.some_bind]
      rw [if_pos (by omega)]
      simp only [Option.some.injEq, List.cons.injEq, and_true]
      omega
    | [a, b] =>
      have ha : a < 256 := hel a (by simp)
      have hb : b < 256 := hel b (by simp)
      simp only [b64encode, b64decode]
      rw [b64DecChar_b64EncChar (a / 4) (by omega),
        b64DecChar_b64EncChar (a % 4 * 16 + b / 16) (by omega),
        b64DecChar_b64EncChar (b % 16 * 4) (by omega)]
      simp only [Option.bind_eq_bind, Option.some_bind]
      rw [if_pos (by omega)]
      simp only [Option.some.injEq, List.cons.injEq, and_true]
      omega
    | a :: b :: c :: rest =>
      have ha : a < 256 := hel a (by simp)
      have hb : b < 256 := hel b (by simp)
      have hc : c < 256 := hel c (by simp)
      have hrest : b64decode (b64encode rest) = some rest := by
        refine ih rest (by simp at hlen; omega) ?_
        intro x hx
        exact hel x (by simp [hx])
      simp only [b64encode, b64decode]
      rw [b64DecChar_b64EncChar (a / 4) (by omega),
        b64DecChar_b64EncChar (a % 4 * 16 + b / 16) (by omega),
        b64DecChar_b64EncChar (b % 16 * 4 + c / 64) (by omega),
        b64DecChar_b64EncChar (c % 64) (by omega)]
      simp only [Option.bind_eq_bind, Option.some_bind]
      rw [hrest]
      simp only [Option.bind_eq_bind, Option.some_bind, Option.some.injEq, List.cons.injEq, and_true]
      refine ⟨by omega, by omega, by omega⟩

/-- C2: For every byte sequence `b` whose length is within the decompression output
cap (2 MiB), the transport codec round-trips exactly:
`url_safe_to_bytes (byte_slice_to_url_safe b) = b`, with the one fixed shared
dictionary on both sides. The zstd pair prepared from that dictionary is taken as a
codec satisfying its documented contract (capped decompression inverts compression
on inputs within the cap, and compressed output is made of bytes). -/
theorem transport_roundtrip (z : ZstdCodec)
    (hbyte : ∀ b, (∀ x ∈ b, x < 256) → ∀ x ∈ z.compress b, x < 256)
    (hinv : ∀ b, (∀ x ∈ b, x < 256) → b.length ≤ SIZE_CAP →
      z.decompress (z.compress b) SIZE_CAP = some b)
    (b : List Nat) (hbb : ∀ x ∈ b, x < 256) (hb : b.length ≤ SIZE_CAP) :
    urlSafeToBytes z (byteSliceToUrlSafe z b) = some b := by
  unfold urlSafeToBytes byteSliceToUrlSafe
  rw [b64decode_b64encode (z.compress b).length (z.compress b) le_rfl (hbyte b hbb)]
  simp only [Option.bind_eq_bind, Option.some_bind]
  exact hinv b hbb hb

/-- Witness for C2: the round trip applied to the concrete byte sequence
`[10, 200, 31]` through a codec satisfying the contract. -/
theorem transport_roundtrip_witness :
    urlSafeToBytes idZstd (byteSliceToUrlSafe idZstd [10, 200, 31]) = some [10, 200, 31] := by
  refine transport_roundtrip idZstd ?_ ?_ [10, 200, 31] (by decide) (by decide)
  · intro b hb x hx
    exact hb x hx
  · intro b _ hlen
    simp only [idZstd, id]
    rw [if_pos hlen]

end Psi

namespace Psi

/-- The spec's concrete scenario: `{name:"Test", mods:[], pieces:[one psi:connector
piece at (0,0) with params {"_target":3}]}`. -/
def testSpell : Spell :=
  ⟨[], [⟨⟨strB "psi:connector", some [(strB "_target", 3)], Option.none, Option.none⟩,
    0, 0⟩], strB "Test"⟩

/-- C1: the round trip `Spell::decode (v.bin()) == v` fails on the code at the spec's
own concrete scenario. Encoding the Test spell yields exactly the bytes the spec
lists, but decoding them produces `mods == [Mod { name: "", version: "" }]` instead of
the original empty mods list: the decoder splits the empty mods segment into one
empty chunk. Every other field round-trips exactly. -/
theorem roundtrip_concrete_phantom_mod :
    Spell.bin testSpell = .ok [84, 101, 115, 116, 0, 93, 0, 0, 3, 0] ∧
    Spell.decode [84, 101, 115, 116, 0, 93, 0, 0, 3, 0] =
      .ok ⟨[⟨[], []⟩], testSpell.pieces, testSpell.name⟩ ∧
    (⟨[⟨[], []⟩], testSpell.pieces, testSpell.name⟩ : Spell) ≠ testSpell := by
  refine ⟨by decide, by decide, by decide⟩

/-- C3 counterexample: decoding succeeds on a truncated input. The two bytes `"AB"`
contain no NUL terminator for the name field and no mods terminator `]`, yet
`Spell::decode` returns a complete spell (with the final byte silently dropped from
the name), contradicting "any truncation mid-field yields a MalformedInput/I-O
failure" and "never returns success on a truncated input". -/
theorem decode_accepts_unterminated_name :
    Spell.decode [65, 66] = .ok ⟨[⟨[], []⟩], [], [65]⟩ := by decide

/-- C3 amended: `Spell::decode` is total — each input yields a complete spell or one
error — and a missing fixed-width payload byte is an I/O (end-of-input) failure,
while an opcode byte outside `{0..19, 255}` is an `InvalidDiscriminant` failure.
However a text field with no terminating NUL is read to end of input with one byte
dropped rather than rejected, and a generic param entry whose catalog-index byte
lies in 43..254 makes the decoder panic (out-of-bounds index into
`BUILTIN_PARAMS`). Shown on concrete inputs: a connector piece truncated before its
`_target` byte; an opcode byte of 20; a generic piece whose param entry has index
byte 43 (panic); and a well-formed generic piece with index byte 0 (success). -/
theorem decode_outcome_classification :
    Spell.decode [0, 93, 0, 0] = .error .eofError ∧
    Spell.decode [0, 93, 0, 20] = .error .invalidDiscriminant ∧
    Spell.decode [0, 93, 0, 255, 107, 0, 0, 1, 43] = .error .panicked ∧
    Spell.decode [0, 93, 0, 255, 107, 0, 0, 1, 0, 5] =
      .ok ⟨[⟨[], []⟩], [⟨⟨strB "psi:k", some [(strB "_target", 5)],
        Option.none, Option.none⟩, 0, 0⟩], []⟩ := by
  refine ⟨by decide, by decide, by decide, by decide⟩

/-- C4: encoding does not fail only with `MissingParameter` — a piece whose key is
shorter than four bytes (here `"foo"`) makes the encoder panic on the unchecked
slice `&key[0..4]`. The claim's particular case does hold: a connector piece with no
`_target` parameter fails with `MissingParameter` (and produces no bytes, not a
zeroed byte). -/
theorem encode_short_key_panics_and_missing_target :
    Spell.bin ⟨[], [⟨⟨strB "foo", Option.none, Option.none, Option.none⟩, 0, 0⟩],
      strB "S"⟩ = .error .panicked ∧
    Spell.bin ⟨[], [⟨⟨strB "psi:connector", Option.none, Option.none, Option.none⟩,
      2, 7⟩], strB "S"⟩ =
      .error (.missingParam 2 7 (strB "psi:connector") (strB "_target")) := by
  refine ⟨by decide, by decide⟩

/-- C5 counterexample: a value with key `"foo"` does not round-trip through encode
then decode — encoding it panics on the unchecked slice `&key[0..4]` because the key
is only three bytes long. -/
theorem encode_foo_key_panics :
    Spell.bin ⟨[], [⟨⟨strB "foo", Option.none, Option.none, Option.none⟩, 1, 0⟩],
      strB "T"⟩ = .error .panicked := by decide

/-- C5 amended: namespace normalization holds on the wire and for encodable keys: the
wire bytes of key `"foo"` decode to key `"psi:foo"`; a separator-free key of at least
four bytes (here `"food"`) round-trips through encode then decode to `"psi:food"`; a
piece with key `"othermod:bar"` is unchanged by one encode/decode cycle; and a
`"psi:"`-prefixed key (here `"psi:qqqq"`) has the prefix stripped before writing.
(Only the claim's "value with key `"foo"` round-trips" part fails: encoding a key
shorter than four bytes panics.) -/
theorem namespace_normalization_amended :
    Spell.decode ([0, 93, 16, 255] ++ strB "foo" ++ [0, 0, 254]) =
      .ok ⟨[⟨[], []⟩], [⟨⟨strB "psi:foo", Option.none, Option.none, Option.none⟩,
        1, 0⟩], []⟩ ∧
    Spell.bin ⟨[], [⟨⟨strB "food", Option.none, Option.none, Option.none⟩, 2, 3⟩],
      [78]⟩ = .ok [78, 0, 93, 35, 255, 102, 111, 111, 100, 0, 0, 254] ∧
    Spell.decode [78, 0, 93, 35, 255, 102, 111, 111, 100, 0, 0, 254] =
      .ok ⟨[⟨[], []⟩], [⟨⟨strB "psi:food", Option.none, Option.none, Option.none⟩,
        2, 3⟩], [78]⟩ ∧
    Spell.bin ⟨[], [⟨⟨strB "othermod:bar", Option.none, Option.none, Option.none⟩,
      4, 5⟩], []⟩ =
      .ok ([0, 93, 69] ++ [255] ++ strB "othermod:bar" ++ [0, 0, 254]) ∧
    Spell.decode ([0, 93, 69] ++ [255] ++ strB "othermod:bar" ++ [0, 0, 254]) =
      .ok ⟨[⟨[], []⟩], [⟨⟨strB "othermod:bar", Option.none, Option.none,
        Option.none⟩, 4, 5⟩], []⟩ ∧
    Spell.bin ⟨[], [⟨⟨strB "psi:qqqq", Option.none, Option.none, Option.none⟩, 0, 0⟩],
      []⟩ = .ok ([0, 93, 0, 255] ++ strB "qqqq" ++ [0, 0, 254]) := by
  refine ⟨by decide, by decide, by decide, by decide, by decide, by decide⟩

/-- C7: the `MissingParameter` error does not carry the name of the actually missing
parameter. A vector-construct piece at (1,2) whose params lack `"_x"` fails with an
error that carries the piece's x, y and key correctly, but reports the missing
parameter as `"_target"` — the error closure in `GetParam::get_param` hardcodes
`"_target"` regardless of the requested key. -/
theorem missing_x_reported_as_target :
    Spell.bin ⟨[], [⟨⟨strB "psi:operator_vector_construct", some [(strB "_y", 5)],
      Option.none, Option.none⟩, 1, 2⟩], strB "V"⟩ =
      .error (.missingParam 1 2 (strB "psi:operator_vector_construct")
        (strB "_target")) := by decide

/-- The two C8 spells: equal as values (set-based param equality) but with their
param mappings iterating in opposite orders. -/
def orderSpellA : Spell :=
  ⟨[], [⟨⟨strB "mod:k", some [(strB "pa", 1), (strB "pb", 2)], Option.none,
    Option.none⟩, 1, 2⟩], [78]⟩

/-- The same value as `orderSpellA` with the param entries in the other order. -/
def orderSpellB : Spell :=
  ⟨[], [⟨⟨strB "mod:k", some [(strB "pb", 2), (strB "pa", 1)], Option.none,
    Option.none⟩, 1, 2⟩], [78]⟩

/-- C8 counterexample: encoding is not a function of the (set-based) value. Two equal
spell values whose param mappings iterate in different orders — the Rust `HashMap`'s
iteration order depends on its construction history, modelled here by the stored
entry order — produce different byte outputs from `Spell::bin`. -/
theorem value_equal_spells_encode_differently :
    spellValueEq orderSpellA orderSpellB = true ∧
    Spell.bin orderSpellA ≠ Spell.bin orderSpellB := by
  refine ⟨by decide, by decide⟩

/-- C8 amended: encoding is deterministic only as a function of the representation
(the param iteration order), not of the set-based value; the order difference is not
semantically significant — the two encodings of the equal values decode back to
spells that are again equal as values. -/
theorem order_difference_decodes_value_equal :
    Spell.bin orderSpellA =
      .ok ([78, 0, 93, 18, 255] ++ strB "mod:k" ++
        [0, 0, 2, 255, 112, 97, 0, 1, 255, 112, 98, 0, 2]) ∧
    Spell.bin orderSpellB =
      .ok ([78, 0, 93, 18, 255] ++ strB "mod:k" ++
        [0, 0, 2, 255, 112, 98, 0, 2, 255, 112, 97, 0, 1]) ∧
    (∀ d1 d2,
      Spell.decode ([78, 0, 93, 18, 255] ++ strB "mod:k" ++
        [0, 0, 2, 255, 112, 97, 0, 1, 255, 112, 98, 0, 2]) = .ok d1 →
      Spell.decode ([78, 0, 93, 18, 255] ++ strB "mod:k" ++
        [0, 0, 2, 255, 112, 98, 0, 2, 255, 112, 97, 0, 1]) = .ok d2 →
      spellValueEq d1 d2 = true) := by
  refine ⟨by decide, by decide, ?_⟩
  intro d1 d2 h1 h2
  have e1 : d1 = ⟨[⟨[], []⟩], [⟨⟨strB "mod:k", some [(strB "pa", 1), (strB "pb", 2)],
      Option.none, Option.none⟩, 1, 2⟩], [78]⟩ := by
    have := h1.symm.trans (by decide :
      Spell.decode ([78, 0, 93, 18, 255] ++ strB "mod:k" ++
        [0, 0, 2, 255, 112, 97, 0, 1, 255, 112, 98, 0, 2]) =
      .ok ⟨[⟨[], []⟩], [⟨⟨strB "mod:k", some [(strB "pa", 1), (strB "pb", 2)],
        Option.none, Option.none⟩, 1, 2⟩], [78]⟩)
    exact Except.ok.inj this
  have e2 : d2 = ⟨[⟨[], []⟩], [⟨⟨strB "mod:k", some [(strB "pb", 2), (strB "pa", 1)],
      Option.none, Option.none⟩, 1, 2⟩], [78]⟩ := by
    have := h2.symm.trans (by decide :
      Spell.decode ([78, 0, 93, 18, 255] ++ strB "mod:k" ++
        [0, 0, 2, 255, 112, 98, 0, 2, 255, 112, 97, 0, 1]) =
      .ok ⟨[⟨[], []⟩], [⟨⟨strB "mod:k", some [(strB "pb", 2), (strB "pa", 1)],
        Option.none, Option.none⟩, 1, 2⟩], [78]⟩)
    exact Except.ok.inj this
  subst e1
  subst e2
  decide

/-- The C6 counterexample piece: `psi:trick_die` with exactly `{_target}` — a
special-tag shape (opcode 17) that the encoder's inline match does not specialize. -/
def trickDiePiece : Piece :=
  ⟨⟨strB "psi:trick_die", some [(strB "_target", 3)], Option.none, Option.none⟩, 0, 0⟩

/-- C6 counterexample: tag minimality fails for `psi:trick_die` with exactly
`{_target}` — a piece matching one of the ~20 special-tag shapes. The encoder writes
it through the generic path, so its output equals the generic encoding byte for
byte; it is not strictly shorter. -/
theorem trick_die_equals_generic :
    (extendBinPiece trickDiePiece).1 = (extendBinPieceGeneric trickDiePiece).1 ∧
    ¬ (extendBinPiece trickDiePiece).1.length <
        (extendBinPieceGeneric trickDiePiece).1.length := by
  refine ⟨by decide, by decide⟩

/-- The C9 counterexample spell: one connector piece with no params, so encoding
fails with `MissingParameter` after the header and the piece's first two bytes have
already been appended. -/
def failingConnectorSpell : Spell :=
  ⟨[], [⟨⟨strB "psi:connector", Option.none, Option.none, Option.none⟩, 0, 0⟩], []⟩

/-- C9 counterexample: when `Spell::extend_bin` fails with `MissingParameter`, the
caller-supplied buffer is not left as it was before the call — the header bytes and
the failing piece's coordinate and opcode bytes have been appended to it. -/
theorem extend_bin_leaves_partial_output :
    Spell.extendBin failingConnectorSpell [7] =
      ([7, 0, 93, 0, 0],
        some (.missingParam 0 0 (strB "psi:connector") (strB "_target"))) ∧
    ([7, 0, 93, 0, 0] : List Nat) ≠ [7] := by
  refine ⟨by decide, by decide⟩

theorem extendBinGo_append :
    ∀ (ps : List Piece) (out : List Nat), ∃ t, (extendBinGo ps out).1 = out ++ t := by
  intro ps
  induction ps with
  | nil => intro out; exact ⟨[], by simp [extendBinGo]⟩
  | cons p rest ih =>
    intro out
    rcases hp : extendBinPiece p with ⟨bs, e⟩
    cases e with
    | none =>
      obtain ⟨t, ht⟩ := ih (out ++ bs)
      refine ⟨bs ++ t, ?_⟩
      simp only [extendBinGo, hp]
      rw [ht, List.append_assoc]
    | some e =>
      refine ⟨bs, ?_⟩
      simp only [extendBinGo, hp]

/-- C9 amended: `Spell::bin` is atomic — it returns either the complete bytes or one
error, discarding its temporary buffer — and `Spell::extend_bin` only ever appends to
the caller-supplied buffer (it never rewrites the caller's bytes); but on failure the
appended suffix holds the partial output written before the error, rather than the
buffer being restored (shown separately by the counterexample). -/
theorem bin_atomic_extend_bin_appends :
    (∀ (s : Spell) (out : List Nat), ∃ t, (Spell.extendBin s out).1 = out ++ t) ∧
    Spell.bin failingConnectorSpell =
      .error (.missingParam 0 0 (strB "psi:connector") (strB "_target")) := by
  constructor
  · intro s out
    obtain ⟨t, ht⟩ := extendBinGo_append s.pieces (out ++ s.name ++ [0] ++ modsHeader s.mods)
    refine ⟨s.name ++ [0] ++ modsHeader s.mods ++ t, ?_⟩
    rw [Spell.extendBin, ht]
    simp [List.append_assoc]
  · decide

theorem encTag_otherKeys : ∀ k ∈ otherSpecialKeys, encTag k = SpecialTag.None := by
  intro k hk
  simp only [otherSpecialKeys, List.mem_cons, List.not_mem_nil, or_false] at hk
  rcases hk with h|h|h|h|h|h|h|h|h|h|h|h|h|h|h|h|h <;> subst h <;> decide

/-- C6 amended: tag minimality holds exactly for the three shapes the encoder's
inline match specializes — `psi:connector` with `_target`, `psi:constant_number`
with a bare constant, and `psi:operator_vector_construct` with `_x`,`_y`,`_z` each
encode strictly shorter than the same piece forced through the generic path — while
a piece whose (stripped) key is any of the other 17 special-tag names is written
through the generic path itself, byte for byte. -/
theorem tag_minimality_three_shapes :
    (∀ (p : Piece), p.data.key = strB "psi:connector" → ∀ t,
      getParam p.data.params p (strB "_target") = .ok t →
      (extendBinPiece p).1.length < (extendBinPieceGeneric p).1.length) ∧
    (∀ (p : Piece), p.data.key = strB "psi:constant_number" →
      p.data.params = Option.none →
      (extendBinPiece p).1.length < (extendBinPieceGeneric p).1.length) ∧
    (∀ (p : Piece), p.data.key = strB "psi:operator_vector_construct" → ∀ a b c,
      getParam p.data.params p (strB "_x") = .ok a →
      getParam p.data.params p (strB "_y") = .ok b →
      getParam p.data.params p (strB "_z") = .ok c →
      (extendBinPiece p).1.length < (extendBinPieceGeneric p).1.length) ∧
    (∀ (p : Piece), stripKey p.data.key ∈ otherSpecialKeys →
      4 ≤ p.data.key.length → extendBinPiece p = extendBinPieceGeneric p) := by
  refine ⟨?_, ?_, ?_, ?_⟩
  · intro p hk t h
    have h4 : ¬ (strB "psi:connector").length < 4 := by decide
    have hs : stripKey (strB "psi:connector") = strB "connector" := by decide
    have he : encTag (strB "connector") = SpecialTag.Connector := by decide
    simp only [extendBinPiece, extendBinPieceGeneric, hk, if_neg h4, hs, he,
      piecePayload, h, SpecialTag.tagByte, commentBytes]
    simp only [List.length_append, List.length_cons]
    have h9 : (strB "connector").length = 9 := by decide
    omega
  · intro p hk hp
    have h4 : ¬ (strB "psi:constant_number").length < 4 := by decide
    have hs : stripKey (strB "psi:constant_number") = strB "constant_number" := by decide
    have he : encTag (strB "constant_number") = SpecialTag.ConstantNumber := by decide
    simp only [extendBinPiece, extendBinPieceGeneric, hk, if_neg h4, hs, he,
      piecePayload, SpecialTag.tagByte, commentBytes, paramBlock, hp]
    have h15 : (strB "constant_number").length = 15 := by decide
    cases hc : p.data.constant with
    | none => simp only [List.length_append, List.length_cons, Option.getD]; omega
    | some c => simp only [List.length_append, List.length_cons, Option.getD]; omega
  · intro p hk a b c h1 h2 h3
    have h4 : ¬ (strB "psi:operator_vector_construct").length < 4 := by decide
    have hs : stripKey (strB "psi:operator_vector_construct") =
        strB "operator_vector_construct" := by decide
    have he : encTag (strB "operator_vector_construct") =
        SpecialTag.VectorConstruct := by decide
    simp only [extendBinPiece, extendBinPieceGeneric, hk, if_neg h4, hs, he,
      piecePayload, h1, h2, h3, SpecialTag.tagByte, commentBytes]
    simp only [List.length_append, List.length_cons]
    have h25 : (strB "operator_vector_construct").length = 25 := by decide
    omega
  · intro p hmem hlen
    have h4 : ¬ p.data.key.length < 4 := by omega
    have he : encTag (stripKey p.data.key) = SpecialTag.None := encTag_otherKeys _ hmem
    simp only [extendBinPiece, extendBinPieceGeneric, if_neg h4, he, piecePayload,
      SpecialTag.tagByte]

/-- Witness for C6: the three strict-inequality conjuncts applied to concrete
connector, constant-number and vector-construct pieces, and the generic-path
conjunct applied to a concrete `psi:trick_die` piece. -/
theorem tag_minimality_three_shapes_witness :
    ((extendBinPiece ⟨⟨strB "psi:connector", some [(strB "_target", 9)], Option.none,
        Option.none⟩, 1, 2⟩).1.length <
      (extendBinPieceGeneric ⟨⟨strB "psi:connector", some [(strB "_target", 9)],
        Option.none, Option.none⟩, 1, 2⟩).1.length) ∧
    ((extendBinPiece ⟨⟨strB "psi:constant_number", Option.none, some [53], Option.none⟩,
        0, 1⟩).1.length <
      (extendBinPieceGeneric ⟨⟨strB "psi:constant_number", Option.none, some [53],
        Option.none⟩, 0, 1⟩).1.length) ∧
    ((extendBinPiece ⟨⟨strB "psi:operator_vector_construct",
        some [(strB "_x", 1), (strB "_y", 2), (strB "_z", 3)], Option.none,
        Option.none⟩, 3, 4⟩).1.length <
      (extendBinPieceGeneric ⟨⟨strB "psi:operator_vector_construct",
        some [(strB "_x", 1), (strB "_y", 2), (strB "_z", 3)], Option.none,
        Option.none⟩, 3, 4⟩).1.length) ∧
    extendBinPiece ⟨⟨strB "psi:trick_die", Option.none, Option.none, Option.none⟩,
        5, 6⟩ =
      extendBinPieceGeneric ⟨⟨strB "psi:trick_die", Option.none, Option.none,
        Option.none⟩, 5, 6⟩ := by
  refine ⟨tag_minimality_three_shapes.1 _ (by decide) 9 (by decide),
    tag_minimality_three_shapes.2.1 _ (by decide) (by decide),
    tag_minimality_three_shapes.2.2.1 _ (by decide) 1 2 3 (by decide) (by decide)
      (by decide),
    tag_minimality_three_shapes.2.2.2 _ (by decide) (by decide)⟩

set_option maxRecDepth 4096 in
/-- C10: the opcode byte written by the encoder for every successfully encoded piece
is the second byte of that piece's output and is always one of
{0 (connector), 1 (constant_number), 2 (vector-construct), 255 (generic)}; keys
matching any of the remaining 17 special-tag names map to the generic tag (opcode
255) in the encoder's inline match; and the decoder's `TryFrom<u8>` accepts an
opcode byte exactly when it lies in {0..19, 255}. -/
theorem encoder_opcode_range :
    (∀ (p : Piece) (bs : List Nat), extendBinPiece p = (bs, Option.none) →
      ∃ rest, bs = xyByte p :: (encTag (stripKey p.data.key)).tagByte :: rest) ∧
    (∀ key, (encTag key).tagByte = 0 ∨ (encTag key).tagByte = 1 ∨
      (encTag key).tagByte = 2 ∨ (encTag key).tagByte = 255) ∧
    (∀ key, key ∈ otherSpecialKeys → encTag key = SpecialTag.None) ∧
    (∀ b, b < 256 → ((specialTagFromByte b).isSome ↔ (b ≤ 19 ∨ b = 255))) := by
  refine ⟨?_, ?_, encTag_otherKeys, by decide⟩
  · intro p bs h
    unfold extendBinPiece at h
    split at h
    · simp at h
    · dsimp only [] at h
      split at h
      · simp at h
      · split at h <;>
          (simp only [Prod.mk.injEq, and_true, List.cons_append, List.nil_append] at h;
            subst h; exact ⟨_, rfl⟩)
  · intro key
    unfold encTag
    split
    · simp [SpecialTag.tagByte]
    · split
      · simp [SpecialTag.tagByte]
      · split
        · simp [SpecialTag.tagByte]
        · simp [SpecialTag.tagByte]

/-- Witness for C10: the opcode-shape conjunct applied to a concrete connector piece,
the generic-mapping conjunct at the key `trick_die`, and the decoder-acceptance
conjunct at the rejected opcode byte 20. -/
theorem encoder_opcode_range_witness :
    (∃ rest, [0, 0, 3, 0] =
      xyByte ⟨⟨strB "psi:connector", some [(strB "_target", 3)], Option.none,
        Option.none⟩, 0, 0⟩ ::
      (encTag (stripKey (⟨⟨strB "psi:connector", some [(strB "_target", 3)],
        Option.none, Option.none⟩, 0, 0⟩ : Piece).data.key)).tagByte :: rest) ∧
    encTag (strB "trick_die") = SpecialTag.None ∧
    ((specialTagFromByte 20).isSome ↔ (20 ≤ 19 ∨ 20 = 255)) := by
  refine ⟨encoder_opcode_range.1 _ [0, 0, 3, 0] (by decide),
    encoder_opcode_range.2.2.1 (strB "trick_die") (by decide),
    encoder_opcode_range.2.2.2 20 (by decide)⟩

end Psi
